/-
  Verification of the locator presence-and-relay server.

  Shallow embedding of the server's connection handler (server.go: servConn,
  Send) and the shared connection registry (conninfo.go: ConnInfo, List) in
  Lean 4.  Bytes are modelled as natural numbers (wire bytes are < 256; the
  relevant theorems carry that bound explicitly where it matters), strings as
  byte lists, sockets as numeric handles, and time as a natural-number clock.
  Unicode-aware string helpers of the Go standard library (TrimSpace, ToUpper)
  are modelled on their ASCII fragment, which covers every byte the protocol
  verbs and the concrete scenarios use.  RFC 3339 time rendering is a
  parameter of the model (fmt); no claim depends on its digits.
-/
import Mathlib

set_option maxRecDepth 100000

/-- Wire bytes: each entry is one byte of the stream (values < 256 on real input). -/
abbrev Bytes := List Nat

/-- Byte list of an ASCII string literal. -/
def bytesOf (s : String) : Bytes := s.data.map Char.toNat

/-- ASCII fragment of Go unicode.IsSpace, used by strings.TrimSpace. -/
def isSpByte (b : Nat) : Bool :=
  b == 32 || b == 9 || b == 10 || b == 11 || b == 12 || b == 13

/-- strings.TrimSpace on bytes (ASCII fragment). -/
def trimSpace (l : Bytes) : Bytes :=
  ((l.dropWhile isSpByte).reverse.dropWhile isSpByte).reverse

/-- ASCII fragment of strings.ToUpper, byte by byte. -/
def toUpperByte (b : Nat) : Nat :=
  if 97 ≤ b ∧ b ≤ 122 then b - 32 else b

/-- Index of the first space byte, as strings.IndexRune(s, ' ') (none for -1). -/
def idxOf32 : Bytes → Option Nat
  | [] => none
  | b :: bs => if b = 32 then some 0 else (idxOf32 bs).map (· + 1)

/-- strings.SplitN(msg, " ", 2): the part before the first space, and the rest. -/
def splitN2 (msg : Bytes) : Bytes × Option Bytes :=
  match idxOf32 msg with
  | none => (msg, none)
  | some i => (msg.take i, some (msg.drop (i + 1)))

/-- strings.Join(params, " "). -/
def joinSp : List Bytes → Bytes
  | [] => []
  | [x] => x
  | x :: y :: xs => x ++ 32 :: joinSp (y :: xs)

/-- The message written by Send: strings.Join(params, " ") + LF. -/
def mkMsg (params : List Bytes) : Bytes := joinSp params ++ [10]

def CONNECTb : Bytes := bytesOf "CONNECT"
def DISCONNECTb : Bytes := bytesOf "DISCONNECT"
def STATUSb : Bytes := bytesOf "STATUS"
def INFOb : Bytes := bytesOf "INFO"
def PINGb : Bytes := bytesOf "PING"
def PONGb : Bytes := bytesOf "PONG"
def OKb : Bytes := bytesOf "OK"
def ERRORb : Bytes := bytesOf "ERROR"
def TOb : Bytes := bytesOf "TO"
def FROMb : Bytes := bytesOf "FROM"

/-- Stand-in for the text of an I/O error (err.Error()); no claim inspects it. -/
def ioErrorText : Bytes := bytesOf "EOF"

/-- var timeout = 2 * time.Minute, in nanoseconds as Go durations are. -/
def timeout : Nat := 120000000000

/-
  bufio.Reader model.  buf holds already-buffered bytes; chunks are the byte
  slices that successive Reads on the underlying connection will deliver
  (the network's segmentation).  An exhausted chunk list is end of stream.
-/
structure BufReader where
  buf : Bytes
  chunks : List Bytes
deriving Repr, DecidableEq

/-- bufio.Reader.Reset: drop all buffered data, keep reading the connection. -/
def resetReader (r : BufReader) : BufReader := { buf := [], chunks := r.chunks }

/-- Split a byte list at the first LF, keeping the LF with the left part. -/
def splitAtLF : Bytes → Option (Bytes × Bytes)
  | [] => none
  | b :: bs =>
    if b = 10 then some ([10], bs)
    else
      match splitAtLF bs with
      | some (l, r) => some (b :: l, r)
      | none => none

/-- Worker for ReadString: pull chunks until the buffer contains an LF. -/
def readLineAux : List Bytes → Bytes → Option (Bytes × BufReader)
  | chunks, buf =>
    match splitAtLF buf with
    | some p => some (p.1, ⟨p.2, chunks⟩)
    | none =>
      match chunks with
      | [] => none
      | c :: cs => readLineAux cs (buf ++ c)

/-- bufio ReadString(LF): the line including its LF, or none on read error/EOF. -/
def readUntilLF (r : BufReader) : Option (Bytes × BufReader) :=
  readLineAux r.chunks r.buf

/-- Worker for exact reads: pull chunks until n bytes are buffered. -/
def readNAux : List Bytes → Bytes → Nat → Option (Bytes × BufReader)
  | chunks, buf, n =>
    if n ≤ buf.length then some (buf.take n, ⟨buf.drop n, chunks⟩)
    else
      match chunks with
      | [] => none
      | c :: cs => readNAux cs (buf ++ c) n

/-- Read exactly n bytes (binary.Read / the reads of io.CopyN); none on EOF. -/
def readN (n : Nat) (r : BufReader) : Option (Bytes × BufReader) :=
  readNAux r.chunks r.buf n

/-- Little-endian 32-bit decode of the 4 length-prefix bytes. -/
def decodeLE4 : Bytes → Nat
  | [a, b, c, d] => a + 256 * b + 65536 * c + 16777216 * d
  | _ => 0

/-- Little-endian byte encoding of the low 32 bits (binary.Write of an int32). -/
def encodeLE4 (u : Nat) : Bytes :=
  [u % 256, u / 256 % 256, u / 65536 % 256, u / 16777216 % 256]

/-- Signed value of a 32-bit word. -/
def sint32 (u : Nat) : Int :=
  if u % 4294967296 < 2147483648 then (u % 4294967296 : Int)
  else (u % 4294967296 : Int) - 4294967296

/-- int32 subtraction with wraparound, as the signed value of the result. -/
def sub32 (u k : Nat) : Int :=
  sint32 ((u + 4294967296 - k % 4294967296) % 4294967296)

/-
  conninfo.go: ConnInfo.  conn is the socket handle (none models a nil net.Conn);
  updated is the model clock value at the last refresh.
-/
structure ConnInfo where
  id : Bytes
  addr : Bytes
  addr2 : Bytes
  updated : Nat
  status : Bytes
  conn : Option Nat
deriving Repr, DecidableEq

/-- NewConnInfo: addr2 defaults to "0.0.0.0:0" when empty; updated = now; status zero. -/
def NewConnInfo (conn : Option Nat) (id addr addr2 : Bytes) (now : Nat) : ConnInfo :=
  { id := id, addr := addr,
    addr2 := if addr2 = [] then bytesOf "0.0.0.0:0" else addr2,
    updated := now, status := [], conn := conn }

/-- ConnInfo.String: Sprintf("%s %s %s %s", addr, addr2, RFC3339(updated), status).
    fmt is the RFC 3339 renderer, kept as a parameter of the model. -/
def connInfoString (fmt : Nat → Bytes) (ci : ConnInfo) : Bytes :=
  ci.addr ++ 32 :: (ci.addr2 ++ 32 :: (fmt ci.updated ++ 32 :: ci.status))

/-- The map inside conninfo.go List: association list with unique keys. -/
def lookupReg : List (Bytes × ConnInfo) → Bytes → Option ConnInfo
  | [], _ => none
  | (k, v) :: rest, id => if k = id then some v else lookupReg rest id

def insertReg : List (Bytes × ConnInfo) → Bytes → ConnInfo → List (Bytes × ConnInfo)
  | [], id, v => [(id, v)]
  | (k, w) :: rest, id, v =>
    if k = id then (id, v) :: rest else (k, w) :: insertReg rest id v

def eraseReg : List (Bytes × ConnInfo) → Bytes → List (Bytes × ConnInfo)
  | [], _ => []
  | (k, w) :: rest, id => if k = id then rest else (k, w) :: eraseReg rest id

/-
  Shared server state: the registry map plus the set (chronological list) of
  socket handles that have been closed so far.  Closing a socket is the only
  externally visible effect of ConnInfo.Close.
-/
structure ServState where
  reg : List (Bytes × ConnInfo)
  closed : List Nat
deriving Repr, DecidableEq

/-- ConnInfo.Close: closes the socket when it is not nil. -/
def closeConn (g : ServState) (c : Option Nat) : ServState :=
  match c with
  | some h => { g with closed := g.closed ++ [h] }
  | none => g

/-- List.Add: close the socket of an existing record for id, then install the
    fresh record (last-writer-wins). -/
def registryAdd (g : ServState) (conn : Option Nat) (id addr addr2 : Bytes)
    (now : Nat) : ServState :=
  let g1 :=
    match lookupReg g.reg id with
    | some old => closeConn g old.conn
    | none => g
  { g1 with reg := insertReg g1.reg id (NewConnInfo conn id addr addr2 now) }

/-- List.Remove: when a record for id exists, close its socket and delete it. -/
def registryRemove (g : ServState) (id : Bytes) : ServState :=
  match lookupReg g.reg id with
  | some old =>
    let g1 := closeConn g old.conn
    { g1 with reg := eraseReg g1.reg id }
  | none => g

/-- List.SetStatus: replace status and refresh updated, if the id is present. -/
def registrySetStatus (g : ServState) (id status : Bytes) (now : Nat) : ServState :=
  match lookupReg g.reg id with
  | some ci => { g with reg := insertReg g.reg id { ci with status := status, updated := now } }
  | none => g

/-- List.Update: refresh updated to now, if the id is present. -/
def registryUpdate (g : ServState) (id : Bytes) (now : Nat) : ServState :=
  match lookupReg g.reg id with
  | some ci => { g with reg := insertReg g.reg id { ci with updated := now } }
  | none => g

/-- A write to socket h succeeds when the peer is alive and the handle has not
    been closed (alive models network failures of foreign sockets). -/
def writeOk (alive : Nat → Bool) (g : ServState) (h : Nat) : Bool :=
  alive h && !(g.closed.contains h)

/-
  Per-connection state of servConn: the buffered reader, the session id
  (empty until CONNECT), the observed remote address, the own socket handle.
-/
structure Session where
  reader : BufReader
  id : Bytes
  addr : Bytes
  sock : Nat
deriving Repr, DecidableEq

/-
  Effects of one loop iteration of servConn: the successor session and shared
  state, the messages successfully written to the own socket, the chronological
  writes delivered to foreign sockets, and whether servConn returned.
-/
structure StepOut where
  sess : Session
  glob : ServState
  own : List Bytes
  foreign : List (Nat × Bytes)
  exited : Bool
deriving Repr, DecidableEq

/-
  servConn command handlers (server.go, the cases of the switch).  Each takes
  the uppercased verb cmd (echoed into replies), the parameter, the session
  after the line was consumed, and the shared state after the activity refresh.
  A failing write to the own socket makes servConn return (exited := true);
  such a message is not delivered and does not appear in own.
-/

/-- CONNECT case (server.go lines 166-188). -/
def handleConnect (alive : Nat → Bool) (now : Nat) (cmd param : Bytes)
    (sess : Session) (g : ServState) : StepOut :=
  if param ≠ [] then
    let pr :=
      match idxOf32 param with
      | some idx => if 1 < idx then (param.take idx, param.drop idx) else (param, [])
      | none => (param, ([] : Bytes))
    let sess1 := { sess with id := pr.1 }
    let g1 := registryAdd g (some sess.sock) pr.1 sess.addr pr.2 now
    if writeOk alive g1 sess.sock then
      { sess := sess1, glob := g1,
        own := [mkMsg [OKb, cmd, pr.1, sess.addr]], foreign := [], exited := false }
    else
      { sess := sess1, glob := g1, own := [], foreign := [], exited := true }
  else
    if writeOk alive g sess.sock then
      { sess := sess, glob := g,
        own := [mkMsg [ERRORb, cmd, bytesOf "empty id"]], foreign := [], exited := false }
    else
      { sess := sess, glob := g, own := [], foreign := [], exited := true }

/-- STATUS case (server.go lines 189-201). -/
def handleStatus (alive : Nat → Bool) (now : Nat) (cmd param : Bytes)
    (sess : Session) (g : ServState) : StepOut :=
  if sess.id ≠ [] then
    let g1 := registrySetStatus g sess.id param now
    if writeOk alive g1 sess.sock then
      { sess := sess, glob := g1,
        own := [mkMsg [OKb, cmd, param]], foreign := [], exited := false }
    else
      { sess := sess, glob := g1, own := [], foreign := [], exited := true }
  else
    if writeOk alive g sess.sock then
      { sess := sess, glob := g,
        own := [mkMsg [ERRORb, cmd, bytesOf "not connected"]], foreign := [], exited := false }
    else
      { sess := sess, glob := g, own := [], foreign := [], exited := true }

/-- The ERROR cmd param "not found" reply of the INFO case. -/
def infoNotFound (alive : Nat → Bool) (cmd param : Bytes)
    (sess : Session) (g : ServState) : StepOut :=
  if writeOk alive g sess.sock then
    { sess := sess, glob := g,
      own := [mkMsg [ERRORb, cmd, param, bytesOf "not found"]], foreign := [], exited := false }
  else
    { sess := sess, glob := g, own := [], foreign := [], exited := true }

/-- INFO case (server.go lines 202-235): look up the target; when present,
    with a non-nil socket and fresh, probe it with a PING carrying the
    requester's id; reply with the record on probe success, remove the target
    and reply not found on probe failure; not found otherwise. -/
def handleInfo (alive : Nat → Bool) (fmt : Nat → Bytes) (now : Nat)
    (cmd param : Bytes) (sess : Session) (g : ServState) : StepOut :=
  match lookupReg g.reg param with
  | some info =>
    match info.conn with
    | some h =>
      if now - info.updated < timeout then
        if writeOk alive g h then
          if writeOk alive g sess.sock then
            { sess := sess, glob := g,
              own := [mkMsg [OKb, cmd, param, connInfoString fmt info]],
              foreign := [(h, mkMsg [PINGb, sess.id])], exited := false }
          else
            { sess := sess, glob := g, own := [],
              foreign := [(h, mkMsg [PINGb, sess.id])], exited := true }
        else
          let g1 := registryRemove g param
          if writeOk alive g1 sess.sock then
            { sess := sess, glob := g1,
              own := [mkMsg [ERRORb, cmd, param, bytesOf "not found"]],
              foreign := [], exited := false }
          else
            { sess := sess, glob := g1, own := [], foreign := [], exited := true }
      else infoNotFound alive cmd param sess g
    | none => infoNotFound alive cmd param sess g
  | none => infoNotFound alive cmd param sess g

/-- PING case (server.go lines 236-240). -/
def handlePing (alive : Nat → Bool) (cmd param : Bytes)
    (sess : Session) (g : ServState) : StepOut :=
  if writeOk alive g sess.sock then
    { sess := sess, glob := g,
      own := [mkMsg [OKb, cmd, param]], foreign := [], exited := false }
  else
    { sess := sess, glob := g, own := [], foreign := [], exited := true }

/-- DISCONNECT case (server.go lines 241-243): reply (error ignored), return. -/
def handleDisconnect (alive : Nat → Bool) (cmd : Bytes)
    (sess : Session) (g : ServState) : StepOut :=
  if writeOk alive g sess.sock then
    { sess := sess, glob := g, own := [mkMsg [OKb, cmd]], foreign := [], exited := true }
  else
    { sess := sess, glob := g, own := [], foreign := [], exited := true }

/-- The ERROR cmd param "not connected" reply plus reader reset of the TO case. -/
def toNotConnected (alive : Nat → Bool) (cmd param : Bytes)
    (sess : Session) (g : ServState) : StepOut :=
  if writeOk alive g sess.sock then
    { sess := { sess with reader := resetReader sess.reader }, glob := g,
      own := [mkMsg [ERRORb, cmd, param, bytesOf "not connected"]],
      foreign := [], exited := false }
  else
    { sess := sess, glob := g, own := [], foreign := [], exited := true }

/-- TO error cleanup after the target was found: error reply to the
    originator, reader reset, Registry.Remove(target); the writes already
    delivered to the target stay delivered. -/
def toFailCleanup (alive : Nat → Bool) (cmd param : Bytes)
    (sess : Session) (g : ServState) (delivered : List (Nat × Bytes)) : StepOut :=
  if writeOk alive g sess.sock then
    { sess := { sess with reader := resetReader sess.reader },
      glob := registryRemove g param,
      own := [mkMsg [ERRORb, cmd, ioErrorText]], foreign := delivered, exited := false }
  else
    { sess := sess, glob := g, own := [], foreign := delivered, exited := true }

/-- TO case (server.go lines 244-314): find a live, fresh target; read the
    4-byte little-endian int32 length; send the FROM line and the length
    prefix to the target; copy length-4 bytes (int32 arithmetic; io.CopyN
    with a non-positive count copies nothing and reports success); reply. -/
def handleTO (alive : Nat → Bool) (now : Nat) (cmd param : Bytes)
    (sess : Session) (g : ServState) : StepOut :=
  if param = [] then
    if writeOk alive g sess.sock then
      { sess := { sess with reader := resetReader sess.reader }, glob := g,
        own := [mkMsg [ERRORb, cmd, bytesOf "empty TO"]], foreign := [], exited := false }
    else
      { sess := sess, glob := g, own := [], foreign := [], exited := true }
  else
    match lookupReg g.reg param with
    | none => toNotConnected alive cmd param sess g
    | some tgt =>
      match tgt.conn with
      | none => toNotConnected alive cmd param sess g
      | some h =>
        if timeout < now - tgt.updated then toNotConnected alive cmd param sess g
        else
          match readN 4 sess.reader with
          | none =>
            if writeOk alive g sess.sock then
              { sess := { sess with reader := resetReader sess.reader }, glob := g,
                own := [mkMsg [ERRORb, cmd, ioErrorText]], foreign := [], exited := false }
            else
              { sess := sess, glob := g, own := [], foreign := [], exited := true }
          | some (lb, r2) =>
            if writeOk alive g h then
              let f1 := (h, mkMsg [FROMb, sess.id])
              if writeOk alive g h then
                let f2 := (h, encodeLE4 (decodeLE4 lb))
                let n := sub32 (decodeLE4 lb) 4
                if n ≤ 0 then
                  if writeOk alive g sess.sock then
                    { sess := { sess with reader := r2 }, glob := g,
                      own := [mkMsg [OKb, cmd, param]], foreign := [f1, f2], exited := false }
                  else
                    { sess := { sess with reader := r2 }, glob := g,
                      own := [], foreign := [f1, f2], exited := true }
                else
                  match readN n.toNat r2 with
                  | none => toFailCleanup alive cmd param { sess with reader := r2 } g [f1, f2]
                  | some (payload, r3) =>
                    if writeOk alive g h then
                      if writeOk alive g sess.sock then
                        { sess := { sess with reader := r3 }, glob := g,
                          own := [mkMsg [OKb, cmd, param]],
                          foreign := [f1, f2, (h, payload)], exited := false }
                      else
                        { sess := { sess with reader := r3 }, glob := g,
                          own := [], foreign := [f1, f2, (h, payload)], exited := true }
                    else
                      toFailCleanup alive cmd param { sess with reader := r3 } g [f1, f2]
              else
                toFailCleanup alive cmd param { sess with reader := r2 } g [f1]
            else
              toFailCleanup alive cmd param { sess with reader := r2 } g []

/-- Parse one received line: trim, split at the first space, uppercase the
    verb, trim the parameter (server.go lines 154-163). -/
def parseLine (m : Bytes) : Bytes × Bytes :=
  let ms := trimSpace m
  let p := splitN2 ms
  (p.1.map toUpperByte, match p.2 with | none => [] | some r => trimSpace r)

/-- One iteration of the servConn read loop (server.go lines 138-319):
    read a line (read error exits), refresh the sender's activity when
    identified, drop lines longer than 256 bytes, dispatch on the verb;
    unknown verbs reset the buffered reader and produce no reply. -/
def step (alive : Nat → Bool) (fmt : Nat → Bytes) (now : Nat)
    (sess : Session) (g : ServState) : StepOut :=
  match readUntilLF sess.reader with
  | none => { sess := sess, glob := g, own := [], foreign := [], exited := true }
  | some (message, r1) =>
    let g1 := if sess.id = [] then g else registryUpdate g sess.id now
    let sess1 := { sess with reader := r1 }
    if 256 < message.length then
      { sess := sess1, glob := g1, own := [], foreign := [], exited := false }
    else
      let pr := parseLine message
      if pr.1 = CONNECTb then handleConnect alive now pr.1 pr.2 sess1 g1
      else if pr.1 = STATUSb then handleStatus alive now pr.1 pr.2 sess1 g1
      else if pr.1 = INFOb then handleInfo alive fmt now pr.1 pr.2 sess1 g1
      else if pr.1 = PINGb then handlePing alive pr.1 pr.2 sess1 g1
      else if pr.1 = DISCONNECTb then handleDisconnect alive pr.1 sess1 g1
      else if pr.1 = TOb then handleTO alive now pr.1 pr.2 sess1 g1
      else
        { sess := { sess1 with reader := resetReader r1 }, glob := g1,
          own := [], foreign := [], exited := false }

/-- Accumulated effects of running the servConn loop. -/
structure RunOut where
  sess : Session
  glob : ServState
  own : List Bytes
  foreign : List (Nat × Bytes)
  exited : Bool
deriving Repr, DecidableEq

/-- Run the servConn loop for at most fuel iterations (enough fuel covers any
    finite input, since every iteration consumes a line). -/
def run (alive : Nat → Bool) (fmt : Nat → Bytes) (now : Nat) :
    Nat → Session → ServState → RunOut
  | 0, sess, g => { sess := sess, glob := g, own := [], foreign := [], exited := false }
  | fuel + 1, sess, g =>
    let o := step alive fmt now sess g
    if o.exited then
      { sess := o.sess, glob := o.glob, own := o.own, foreign := o.foreign, exited := true }
    else
      let r := run alive fmt now fuel o.sess o.glob
      { sess := r.sess, glob := r.glob, own := o.own ++ r.own,
        foreign := o.foreign ++ r.foreign, exited := r.exited }

/-- The deferred teardown of servConn (server.go lines 129-136): when the
    session is identified, Registry.Remove(id) unconditionally; then close the
    own socket. -/
def teardown (sess : Session) (g : ServState) : ServState :=
  let g1 := if sess.id ≠ [] then registryRemove g sess.id else g
  { g1 with closed := g1.closed ++ [sess.sock] }

/-
  Micro-step model of List.Add (conninfo.go lines 74-81) for the replacement
  ordering claim.  The body, in source order: take the write lock; if a record
  for the id exists, close its socket; install the new record; release the
  lock.  List.Info takes the read lock, so a lookup can only observe states in
  which the write lock is free.
-/
inductive AddEvent
  | lockW
  | closeOld
  | install
  | unlockW
deriving Repr, DecidableEq

/-- The events of one List.Add call, in the order the source performs them. -/
def addEvents (replacing : Bool) : List AddEvent :=
  [AddEvent.lockW] ++ (if replacing then [AddEvent.closeOld] else [])
    ++ [AddEvent.install, AddEvent.unlockW]

structure RegMicroState where
  lockW : Bool
  reg : List (Bytes × ConnInfo)
  closed : List Nat
deriving Repr, DecidableEq

def applyAddEvent (id : Bytes) (rec : ConnInfo) (s : RegMicroState) :
    AddEvent → RegMicroState
  | AddEvent.lockW => { s with lockW := true }
  | AddEvent.closeOld =>
    match lookupReg s.reg id with
    | some old =>
      match old.conn with
      | some h => { s with closed := s.closed ++ [h] }
      | none => s
    | none => s
  | AddEvent.install => { s with reg := insertReg s.reg id rec }
  | AddEvent.unlockW => { s with lockW := false }

/-- All intermediate states of one replacing List.Add, initial state included. -/
def addTrace (id : Bytes) (rec : ConnInfo) (s0 : RegMicroState) : List RegMicroState :=
  (addEvents true).scanl (applyAddEvent id rec) s0

/- Helper lemmas. -/

theorem singletonList_eq {α : Type} {a b : α} (h : ([a] : List α) = [b]) : a = b := by
  injection h

theorem joinSp_cons (x : Bytes) (xs : List Bytes) : ∃ t, joinSp (x :: xs) = x ++ t := by
  cases xs with
  | nil => exact ⟨[], by simp [joinSp]⟩
  | cons y ys => exact ⟨32 :: joinSp (y :: ys), rfl⟩

theorem mkMsg_err_ne_ok (xs ys : List Bytes) :
    mkMsg (ERRORb :: xs) ≠ mkMsg (OKb :: ys) := by
  obtain ⟨t, ht⟩ := joinSp_cons ERRORb xs
  obtain ⟨u, hu⟩ := joinSp_cons OKb ys
  intro h
  rw [mkMsg, mkMsg, ht, hu] at h
  have hE : ERRORb = 69 :: [82, 82, 79, 82] := by decide
  have hO : OKb = 79 :: [75] := by decide
  rw [hE, hO] at h
  simp [List.cons_append] at h

theorem readNAux_length (chunks : List Bytes) (buf : Bytes) (n : Nat)
    (p : Bytes) (r2 : BufReader) (h : readNAux chunks buf n = some (p, r2)) :
    p.length = n := by
  induction chunks generalizing buf with
  | nil =>
    rw [readNAux] at h
    by_cases hn : n ≤ buf.length
    · rw [if_pos hn] at h
      injection h with h1
      injection h1 with h2 h3
      subst h2
      simpa using hn
    · rw [if_neg hn] at h
      exact absurd h (by simp)
  | cons c cs ih =>
    rw [readNAux] at h
    by_cases hn : n ≤ buf.length
    · rw [if_pos hn] at h
      injection h with h1
      injection h1 with h2 h3
      subst h2
      simpa using hn
    · rw [if_neg hn] at h
      exact ih _ h

theorem readN_length (n : Nat) (r : BufReader) (p : Bytes) (r2 : BufReader)
    (h : readN n r = some (p, r2)) : p.length = n :=
  readNAux_length r.chunks r.buf n p r2 h

theorem idxOf32_drop (l : Bytes) (i : Nat) (h : idxOf32 l = some i) :
    l.drop i = 32 :: l.drop (i + 1) := by
  induction l generalizing i with
  | nil => exact absurd h (by simp [idxOf32])
  | cons b bs ih =>
    rw [idxOf32] at h
    by_cases hb : b = 32
    · rw [if_pos hb] at h
      injection h with h1
      subst h1
      simp [hb]
    · rw [if_neg hb] at h
      cases hi : idxOf32 bs with
      | none => rw [hi] at h; exact absurd h (by simp)
      | some j =>
        rw [hi] at h
        simp at h
        subst h
        simpa using ih j hi

theorem idxOf32_ne_nil (l : Bytes) (i : Nat) (h : idxOf32 l = some i) : l ≠ [] := by
  intro hl
  subst hl
  exact absurd h (by simp [idxOf32])

theorem encodeLE4_decodeLE4 (a b c d : Nat)
    (ha : a < 256) (hb : b < 256) (hc : c < 256) (hd : d < 256) :
    encodeLE4 (decodeLE4 [a, b, c, d]) = [a, b, c, d] := by
  simp only [decodeLE4, encodeLE4, List.cons.injEq, and_true]
  refine ⟨?_, ?_, ?_, ?_⟩ <;> omega

theorem closeConn_reg (g : ServState) (c : Option Nat) : (closeConn g c).reg = g.reg := by
  cases c <;> rfl

theorem lookup_insert (m : List (Bytes × ConnInfo)) (id : Bytes) (v : ConnInfo) :
    lookupReg (insertReg m id v) id = some v := by
  induction m with
  | nil => simp [insertReg, lookupReg]
  | cons p rest ih =>
    obtain ⟨k, w⟩ := p
    rw [insertReg]
    by_cases hk : k = id
    · rw [if_pos hk]
      simp [lookupReg]
    · rw [if_neg hk]
      rw [lookupReg, if_neg hk]
      exact ih

theorem erase_of_lookup_none (m : List (Bytes × ConnInfo)) (id : Bytes)
    (h : lookupReg m id = none) : eraseReg m id = m := by
  induction m with
  | nil => rfl
  | cons p rest ih =>
    obtain ⟨k, w⟩ := p
    rw [lookupReg] at h
    by_cases hk : k = id
    · rw [if_pos hk] at h; exact absurd h (by simp)
    · rw [if_neg hk] at h
      rw [eraseReg, if_neg hk, ih h]

/- Concrete fixtures for evaluations, counterexamples and witnesses. -/

def aliveAll : Nat → Bool := fun _ => true

def fmtNil : Nat → Bytes := fun _ => []

def emptyServ : ServState := { reg := [], closed := [] }

def targetRec : ConnInfo :=
  { id := bytesOf "b", addr := bytesOf "9.9.9.9:9", addr2 := bytesOf "0.0.0.0:0",
    updated := 7, status := [], conn := some 2 }

def servWithB : ServState := { reg := [(bytesOf "b", targetRec)], closed := [] }

def sessDouble : Session :=
  { reader := { buf := [], chunks := [bytesOf "CONNECT x\n", bytesOf "CONNECT x\n"] },
    id := [], addr := bytesOf "1.2.3.4:5", sock := 1 }

/-- Claim C2: evaluation of the code at the failing input.  The same session
    sends CONNECT x twice.  The handler has no already-identified check: the
    second CONNECT re-runs Registry.Add, whose replacement closes the old
    record's socket, which is this session's own socket (closed = [1]); the
    OK reply to the second CONNECT then fails and the session terminates.
    The client sees exactly one OK CONNECT and never an
    ERROR CONNECT already connected; the registry was re-written. -/
theorem C2_double_connect_eval :
    (run aliveAll fmtNil 7 3 sessDouble emptyServ).own
        = [mkMsg [OKb, CONNECTb, bytesOf "x", bytesOf "1.2.3.4:5"]] ∧
    (run aliveAll fmtNil 7 3 sessDouble emptyServ).exited = true ∧
    (run aliveAll fmtNil 7 3 sessDouble emptyServ).glob.closed = [1] ∧
    lookupReg (run aliveAll fmtNil 7 3 sessDouble emptyServ).glob.reg (bytesOf "x")
        = some (NewConnInfo (some 1) (bytesOf "x") (bytesOf "1.2.3.4:5") [] 7) := by
  decide

def recSeven : ConnInfo :=
  { id := bytesOf "x", addr := [], addr2 := [], updated := 0, status := [], conn := some 7 }

def gSucc : ServState := { reg := [(bytesOf "x", recSeven)], closed := [] }

def sessOld : Session :=
  { reader := { buf := [], chunks := [] }, id := bytesOf "x", addr := [], sock := 5 }

/-- Claim C3 is false on the code: a teardown of a session whose id was
    reclaimed by a successor (stored socket 7, this session's socket 5)
    still removes the record; removal is not conditional on the socket. -/
theorem C3_claim_false :
    ¬ ((lookupReg (teardown sessOld gSucc).reg sessOld.id = none) ↔
        (recSeven.conn = some sessOld.sock)) := by
  decide

/-- Claim C3 (amended): on teardown of an identified session the registry
    record for its id is removed unconditionally (List.Remove by id), whether
    or not the stored record's socket is this connection's socket, and the
    stored record's socket is closed together with the session's own. -/
theorem C3_teardown_unconditional (sess : Session) (g : ServState) (h : sess.id ≠ []) :
    (teardown sess g).reg = eraseReg g.reg sess.id ∧
    (∀ info, lookupReg g.reg sess.id = some info →
       (teardown sess g).closed = (g.closed ++ info.conn.toList) ++ [sess.sock]) := by
  constructor
  · unfold teardown
    rw [if_pos h]
    unfold registryRemove
    cases hl : lookupReg g.reg sess.id with
    | none => simp [erase_of_lookup_none _ _ hl]
    | some old => simp [closeConn_reg]
  · intro info hinfo
    unfold teardown registryRemove
    rw [if_pos h, hinfo]
    cases hc : info.conn with
    | none => simp [closeConn, hc]
    | some hh => simp [closeConn, hc]

/-- Witness for the amended C3 at the concrete successor scenario: the
    successor's record is evicted and its socket 7 closed alongside socket 5. -/
theorem C3_teardown_unconditional_witness :
    (teardown sessOld gSucc).reg = [] ∧ (teardown sessOld gSucc).closed = [7, 5] := by
  have h := C3_teardown_unconditional sessOld gSucc (by decide)
  refine ⟨?_, ?_⟩
  · rw [h.1]; decide
  · rw [h.2 recSeven (by decide)]; decide

def recA : ConnInfo :=
  { id := bytesOf "a", addr := [], addr2 := [], updated := 5, status := [], conn := some 1 }

def gIdent : ServState := { reg := [(bytesOf "a", recA)], closed := [] }

def sessLong : Session :=
  { reader := { buf := List.replicate 256 65 ++ [10], chunks := [] },
    id := bytesOf "a", addr := [], sock := 1 }

/-- Claim C6 is false on the code: an identified session receiving a 257-byte
    line gets no reply and stays connected, but the registry state does
    change, because Registry.Update on the sender runs before the length
    check (the record's updated moves from 5 to 50). -/
theorem C6_claim_false :
    (step aliveAll fmtNil 50 sessLong gIdent).own = [] ∧
    (step aliveAll fmtNil 50 sessLong gIdent).foreign = [] ∧
    (step aliveAll fmtNil 50 sessLong gIdent).exited = false ∧
    (step aliveAll fmtNil 50 sessLong gIdent).glob ≠ gIdent := by
  decide

def ping250 : Bytes := bytesOf "PING " ++ List.replicate 250 97 ++ [10]

def sess256 : Session :=
  { reader := { buf := ping250, chunks := [] }, id := [], addr := [], sock := 1 }

/-- Claim C6 (amended): a line longer than 256 bytes (LF included) is read to
    completion and silently discarded, with no reply and no state change
    other than the sender's last-activity refresh (Registry.Update), which
    happens for every received line before the length check; the session
    continues with the next line.  A 256-byte line is processed normally
    (concrete conjunct: a 256-byte PING line is answered). -/
theorem C6_line_length_amended :
    (∀ alive fmt now sess g m r1,
       readUntilLF sess.reader = some (m, r1) → 256 < m.length →
       step alive fmt now sess g =
         { sess := { sess with reader := r1 },
           glob := if sess.id = [] then g else registryUpdate g sess.id now,
           own := [], foreign := [], exited := false }) ∧
    ((step aliveAll fmtNil 7 sess256 emptyServ).own
        = [mkMsg [OKb, PINGb, List.replicate 250 97]] ∧ ping250.length = 256) := by
  constructor
  · intro alive fmt now sess g m r1 hr hlen
    unfold step
    rw [hr]
    simp only [if_pos hlen]
  · constructor <;> decide

/-- Witness for the amended C6 at the concrete 257-byte line, hypotheses
    discharged by evaluation. -/
theorem C6_line_length_amended_witness :
    step aliveAll fmtNil 50 sessLong gIdent =
      { sess := { sessLong with reader := { buf := [], chunks := [] } },
        glob := if sessLong.id = [] then gIdent else registryUpdate gIdent sessLong.id 50,
        own := [], foreign := [], exited := false } :=
  C6_line_length_amended.1 aliveAll fmtNil 50 sessLong gIdent
    (List.replicate 256 65 ++ [10]) { buf := [], chunks := [] } (by decide) (by decide)

theorem applyCloseOld_lockW (id : Bytes) (rec : ConnInfo) (s : RegMicroState) :
    (applyAddEvent id rec s AddEvent.closeOld).lockW = s.lockW := by
  cases hl : lookupReg s.reg id with
  | none => simp [applyAddEvent, hl]
  | some old => cases hc : old.conn <;> simp [applyAddEvent, hl, hc]

theorem applyCloseOld_reg (id : Bytes) (rec : ConnInfo) (s : RegMicroState) :
    (applyAddEvent id rec s AddEvent.closeOld).reg = s.reg := by
  cases hl : lookupReg s.reg id with
  | none => simp [applyAddEvent, hl]
  | some old => cases hc : old.conn <;> simp [applyAddEvent, hl, hc]

/-- Claim C7 is false as stated: in the body of a replacing List.Add the old
    record's socket is closed strictly before the new record is installed
    (event order lock, closeOld, install, unlock). -/
theorem C7_claim_false :
    AddEvent.closeOld ∈ addEvents true ∧
    (addEvents true).indexOf AddEvent.closeOld < (addEvents true).indexOf AddEvent.install := by
  decide

/-- Claim C7 (amended): List.Add closes the old socket before installing the
    replacement, but both happen in the same exclusive critical section, so
    any lookup (which needs the write lock to be free) observes either the
    registry before the Add or the registry with the new record installed,
    and never the intermediate closed-but-not-yet-replaced state. -/
theorem C7_add_under_lock (id : Bytes) (rec : ConnInfo) (s0 : RegMicroState)
    (h0 : s0.lockW = false) :
    ∀ s ∈ addTrace id rec s0, s.lockW = false →
      s.reg = s0.reg ∨ s.reg = insertReg s0.reg id rec := by
  intro s hs hlock
  simp only [addTrace, addEvents, if_pos, List.scanl, List.mem_cons,
    List.not_mem_nil, or_false, List.cons_append, List.nil_append] at hs
  rcases hs with h | h | h | h | h
  · subst h; left; rfl
  · subst h; simp [applyAddEvent] at hlock
  · subst h
    rw [applyCloseOld_lockW] at hlock
    simp [applyAddEvent] at hlock
  · subst h
    have : (applyAddEvent id rec
        (applyAddEvent id rec (applyAddEvent id rec s0 AddEvent.lockW) AddEvent.closeOld)
        AddEvent.install).lockW = true := by
      show (applyAddEvent id rec (applyAddEvent id rec s0 AddEvent.lockW) AddEvent.closeOld).lockW = true
      rw [applyCloseOld_lockW]
      rfl
    rw [this] at hlock
    exact absurd hlock (by simp)
  · subst h
    right
    show (applyAddEvent id rec
        (applyAddEvent id rec (applyAddEvent id rec s0 AddEvent.lockW) AddEvent.closeOld)
        AddEvent.install).reg = insertReg s0.reg id rec
    show insertReg (applyAddEvent id rec (applyAddEvent id rec s0 AddEvent.lockW) AddEvent.closeOld).reg id rec
        = insertReg s0.reg id rec
    rw [applyCloseOld_reg]
    rfl

def microRec : ConnInfo :=
  { id := bytesOf "x", addr := bytesOf "2.2.2.2:2", addr2 := [], updated := 9,
    status := [], conn := some 4 }

def microStart : RegMicroState := { lockW := false, reg := [(bytesOf "x", recSeven)], closed := [] }

def microFinal : RegMicroState :=
  { lockW := false, reg := [(bytesOf "x", microRec)], closed := [7] }

/-- Witness for the amended C7: the post-Add state of a concrete replacing
    Add is observable and equals the initial registry with the new record
    installed. -/
theorem C7_add_under_lock_witness :
    microFinal.reg = microStart.reg ∨
    microFinal.reg = insertReg microStart.reg (bytesOf "x") microRec :=
  C7_add_under_lock (bytesOf "x") microRec microStart (by decide) microFinal
    (by decide) (by decide)

def sessBatch : Session :=
  { reader := { buf := [], chunks := [bytesOf "FOO bar\nPING x\n"] },
    id := bytesOf "a", addr := [], sock := 1 }

/-- Claim C8 is false on the code: when the unknown line FOO bar and the
    following PING x arrive in one network read, the unknown-command branch
    runs bufio Reset, which discards the already-buffered PING line as well;
    the session then hits end of stream and the PING is never answered -
    the server produced no reply at all. -/
theorem C8_claim_false :
    (run aliveAll fmtNil 7 3 sessBatch emptyServ).own = [] ∧
    (run aliveAll fmtNil 7 3 sessBatch emptyServ).exited = true := by
  decide

def sessSeparate : Session :=
  { reader := { buf := [], chunks := [bytesOf "FOO bar\n", bytesOf "PING x\n"] },
    id := bytesOf "a", addr := [], sock := 1 }

/-- Claim C8 (amended): a line whose uppercased verb is outside the known
    command set (PONG included) gets no reply; the buffered reader is reset,
    discarding that line and any later bytes already buffered; the session
    continues, and a following known command is answered normally provided
    its bytes arrive after the reset (concrete conjunct: FOO then PING in
    separate network reads yields OK PING x). -/
theorem C8_unknown_verb_amended :
    (∀ alive fmt now sess g m r1,
       readUntilLF sess.reader = some (m, r1) → ¬ 256 < m.length →
       (parseLine m).1 ∉ [CONNECTb, STATUSb, INFOb, PINGb, DISCONNECTb, TOb] →
       step alive fmt now sess g =
         { sess := { sess with reader := resetReader r1 },
           glob := if sess.id = [] then g else registryUpdate g sess.id now,
           own := [], foreign := [], exited := false }) ∧
    (run aliveAll fmtNil 7 3 sessSeparate emptyServ).own = [mkMsg [OKb, PINGb, bytesOf "x"]] := by
  constructor
  · intro alive fmt now sess g m r1 hr hlen hunk
    simp only [List.mem_cons, List.not_mem_nil, or_false, not_or] at hunk
    obtain ⟨h1, h2, h3, h4, h5, h6⟩ := hunk
    unfold step
    rw [hr]
    simp only [if_neg hlen, if_neg h1, if_neg h2, if_neg h3, if_neg h4, if_neg h5, if_neg h6]
  · decide

def sessPong : Session :=
  { reader := { buf := bytesOf "PONG hi\n", chunks := [] },
    id := [], addr := [], sock := 1 }

/-- Witness for the amended C8: a PONG line (listed among the protocol verbs
    but without a handler) is silently discarded with a reader reset. -/
theorem C8_unknown_verb_amended_witness :
    step aliveAll fmtNil 7 sessPong emptyServ =
      { sess := { sessPong with reader := resetReader { buf := [], chunks := [] } },
        glob := if sessPong.id = [] then emptyServ else registryUpdate emptyServ sessPong.id 7,
        own := [], foreign := [], exited := false } :=
  C8_unknown_verb_amended.1 aliveAll fmtNil 7 sessPong emptyServ (bytesOf "PONG hi\n")
    { buf := [], chunks := [] } (by decide) (by decide) (by decide)

/-- Claim C5 (confirmed): the INFO case.  When a record for the target exists
    with a non-nil socket and now - updated < idleTimeout, a PING line
    carrying the requester's id is written to the target's socket; on probe
    success the requester gets OK INFO target observedAddr reportedAddr
    updatedRFC3339 status, on probe write failure the target record is
    removed and the requester gets ERROR INFO target not found; in every
    other case (absent record, nil socket, stale) the reply is
    ERROR INFO target not found.  (The requester's own socket is assumed
    healthy: hypotheses hown, hown2.) -/
theorem C5_info_semantics (alive : Nat → Bool) (fmt : Nat → Bytes) (now : Nat)
    (cmd param : Bytes) (sess : Session) (g : ServState)
    (hown : writeOk alive g sess.sock = true)
    (hown2 : writeOk alive (registryRemove g param) sess.sock = true) :
    (∀ info h, lookupReg g.reg param = some info → info.conn = some h →
       now - info.updated < timeout →
       ((writeOk alive g h = true →
          handleInfo alive fmt now cmd param sess g =
            { sess := sess, glob := g,
              own := [mkMsg [OKb, cmd, param, connInfoString fmt info]],
              foreign := [(h, mkMsg [PINGb, sess.id])], exited := false }) ∧
        (writeOk alive g h = false →
          handleInfo alive fmt now cmd param sess g =
            { sess := sess, glob := registryRemove g param,
              own := [mkMsg [ERRORb, cmd, param, bytesOf "not found"]],
              foreign := [], exited := false }))) ∧
    (lookupReg g.reg param = none →
       handleInfo alive fmt now cmd param sess g =
         { sess := sess, glob := g,
           own := [mkMsg [ERRORb, cmd, param, bytesOf "not found"]],
           foreign := [], exited := false }) ∧
    (∀ info, lookupReg g.reg param = some info → info.conn = none →
       handleInfo alive fmt now cmd param sess g =
         { sess := sess, glob := g,
           own := [mkMsg [ERRORb, cmd, param, bytesOf "not found"]],
           foreign := [], exited := false }) ∧
    (∀ info h, lookupReg g.reg param = some info → info.conn = some h →
       ¬ now - info.updated < timeout →
       handleInfo alive fmt now cmd param sess g =
         { sess := sess, glob := g,
           own := [mkMsg [ERRORb, cmd, param, bytesOf "not found"]],
           foreign := [], exited := false }) := by
  refine ⟨?_, ?_, ?_, ?_⟩
  · intro info h hl hc hfresh
    constructor
    · intro hw
      simp [handleInfo, hl, hc, hfresh, hw, hown]
    · intro hw
      simp [handleInfo, hl, hc, hfresh, hw, hown2]
  · intro hl
    simp [handleInfo, infoNotFound, hl, hown]
  · intro info hl hc
    simp [handleInfo, infoNotFound, hl, hc, hown]
  · intro info h hl hc hfresh
    simp [handleInfo, infoNotFound, hl, hc, hfresh, hown]

def sessInfoW : Session :=
  { reader := { buf := [], chunks := [] }, id := bytesOf "a", addr := [], sock := 1 }

/-- Witness for C5 at a concrete fresh live target: the probe PING a reaches
    socket 2 and the requester receives the OK INFO reply. -/
theorem C5_info_semantics_witness :
    handleInfo aliveAll fmtNil 7 INFOb (bytesOf "b") sessInfoW servWithB =
      { sess := sessInfoW, glob := servWithB,
        own := [mkMsg [OKb, INFOb, bytesOf "b", connInfoString fmtNil targetRec]],
        foreign := [(2, mkMsg [PINGb, sessInfoW.id])], exited := false } :=
  ((C5_info_semantics aliveAll fmtNil 7 INFOb (bytesOf "b") sessInfoW servWithB
      (by decide) (by decide)).1 targetRec 2 (by decide) (by decide) (by decide)).1
    (by decide)

theorem registryAdd_reg (g : ServState) (c : Option Nat) (id addr addr2 : Bytes)
    (now : Nat) :
    (registryAdd g c id addr addr2 now).reg
      = insertReg g.reg id (NewConnInfo c id addr addr2 now) := by
  unfold registryAdd
  cases hl : lookupReg g.reg id with
  | none => rfl
  | some old => simp [closeConn_reg]

/-- Claim C10 (confirmed): a CONNECT parameter with its first space at index
    idx > 1 stores reportedAddr as the substring from the space onward, the
    leading space included; the record's string rendering therefore puts two
    consecutive spaces between observedAddr and the reported address, and so
    does the OK INFO reply built from it. -/
theorem C10_connect_space_addr2 (fmt : Nat → Bytes) (alive : Nat → Bool) (now : Nat)
    (param : Bytes) (sess : Session) (g : ServState) (idx : Nat)
    (hidx : idxOf32 param = some idx) (h1 : 1 < idx) :
    ∃ rec,
      lookupReg (handleConnect alive now CONNECTb param sess g).glob.reg (param.take idx)
          = some rec ∧
      rec.addr2 = param.drop idx ∧
      rec.addr2.head? = some 32 ∧
      (∃ t, connInfoString fmt rec = sess.addr ++ 32 :: 32 :: t) ∧
      (∀ cmd q, ∃ u v, mkMsg [OKb, cmd, q, connInfoString fmt rec] = u ++ 32 :: 32 :: v) := by
  have hp : param ≠ [] := idxOf32_ne_nil param idx hidx
  have hdrop : param.drop idx = 32 :: param.drop (idx + 1) := idxOf32_drop param idx hidx
  have hne : param.drop idx ≠ [] := by rw [hdrop]; simp
  have hglob : (handleConnect alive now CONNECTb param sess g).glob
      = registryAdd g (some sess.sock) (param.take idx) sess.addr (param.drop idx) now := by
    unfold handleConnect
    rw [if_pos hp]
    simp only [hidx, if_pos h1]
    split <;> rfl
  refine ⟨NewConnInfo (some sess.sock) (param.take idx) sess.addr (param.drop idx) now,
    ?_, ?_, ?_, ?_, ?_⟩
  · rw [hglob, registryAdd_reg]
    exact lookup_insert _ _ _
  · simp only [NewConnInfo]
    rw [if_neg hne]
  · simp only [NewConnInfo]
    rw [if_neg hne, hdrop]
    rfl
  · refine ⟨param.drop (idx + 1) ++ 32 :: (fmt now ++ 32 :: []), ?_⟩
    simp only [connInfoString, NewConnInfo]
    rw [if_neg hne, hdrop]
    simp
  · intro cmd q
    refine ⟨OKb ++ 32 :: (cmd ++ 32 :: (q ++ 32 :: sess.addr)),
      param.drop (idx + 1) ++ 32 :: (fmt now ++ 32 :: []) ++ [10], ?_⟩
    simp only [mkMsg, joinSp, connInfoString, NewConnInfo]
    rw [if_neg hne, hdrop]
    simp

def sessC10 : Session :=
  { reader := { buf := [], chunks := [] }, id := [], addr := bytesOf "7.7.7.7:7", sock := 3 }

/-- Witness for C10 at CONNECT alice 10.0.0.5:4242: the stored reportedAddr
    keeps its leading space and the record string gains a double space. -/
theorem C10_connect_space_addr2_witness :
    ∃ rec,
      lookupReg (handleConnect aliveAll 7 CONNECTb (bytesOf "alice 10.0.0.5:4242")
          sessC10 emptyServ).glob.reg ((bytesOf "alice 10.0.0.5:4242").take 5)
          = some rec ∧
      rec.addr2 = (bytesOf "alice 10.0.0.5:4242").drop 5 ∧
      rec.addr2.head? = some 32 ∧
      (∃ t, connInfoString fmtNil rec = sessC10.addr ++ 32 :: 32 :: t) ∧
      (∀ cmd q, ∃ u v, mkMsg [OKb, cmd, q, connInfoString fmtNil rec] = u ++ 32 :: 32 :: v) :=
  C10_connect_space_addr2 fmtNil aliveAll 7 (bytesOf "alice 10.0.0.5:4242") sessC10
    emptyServ 5 (by decide) (by decide)

theorem toFailCleanup_foreign (alive : Nat → Bool) (cmd param : Bytes)
    (sess : Session) (g : ServState) (delivered : List (Nat × Bytes)) :
    (toFailCleanup alive cmd param sess g delivered).foreign = delivered := by
  unfold toFailCleanup
  split <;> rfl

/-- Claim C9 (confirmed): a session that never completed CONNECT (id still
    empty) has its TO command dispatched to the relay path exactly like an
    identified one - the dispatcher has no identification check - and, when
    the relay reaches the header write, the target receives the line
    FROM followed by a space and LF (empty sender id: the bytes
    70 82 79 77 32 10). -/
theorem C9_unidentified_relay (alive : Nat → Bool) (fmt : Nat → Bytes) (now : Nat)
    (sess : Session) (g : ServState) (m : Bytes) (r1 : BufReader)
    (hid : sess.id = [])
    (hr : readUntilLF sess.reader = some (m, r1))
    (hlen : ¬ 256 < m.length)
    (hcmd : (parseLine m).1 = TOb) :
    (step alive fmt now sess g
        = handleTO alive now TOb (parseLine m).2 { sess with reader := r1 } g) ∧
    (∀ param sessX gX tgt h lb r2,
       sessX.id = [] → param ≠ [] →
       lookupReg gX.reg param = some tgt → tgt.conn = some h →
       ¬ timeout < now - tgt.updated →
       readN 4 sessX.reader = some (lb, r2) →
       writeOk alive gX h = true →
       (handleTO alive now TOb param sessX gX).foreign.head?
           = some (h, [70, 82, 79, 77, 32, 10])) := by
  have hC : (parseLine m).1 ≠ CONNECTb := by rw [hcmd]; decide
  have hS : (parseLine m).1 ≠ STATUSb := by rw [hcmd]; decide
  have hI : (parseLine m).1 ≠ INFOb := by rw [hcmd]; decide
  have hP : (parseLine m).1 ≠ PINGb := by rw [hcmd]; decide
  have hD : (parseLine m).1 ≠ DISCONNECTb := by rw [hcmd]; decide
  constructor
  · unfold step
    rw [hr]
    simp only [if_neg hlen]
    rw [if_neg hC, if_neg hS, if_neg hI, if_neg hP, if_neg hD, if_pos hcmd, hcmd, hid]
    simp
  · intro param sessX gX tgt h lb r2 hidX hp hl hc hfresh hread hw
    have hfrom : mkMsg [FROMb, sessX.id] = [70, 82, 79, 77, 32, 10] := by
      rw [hidX]; decide
    unfold handleTO
    rw [if_neg (by simpa using hp)]
    simp only [hl, hc, if_neg hfresh, hread, hw]
    rw [hfrom]
    repeat' split
    all_goals simp_all [toFailCleanup_foreign]

def sessAnon : Session :=
  { reader := { buf := bytesOf "TO b\n" ++ [0, 0, 0, 0], chunks := [] },
    id := [], addr := [], sock := 1 }

def sessAnonR : Session :=
  { reader := { buf := [0, 0, 0, 0], chunks := [] }, id := [], addr := [], sock := 1 }

/-- Witness for C9: an unidentified session sending TO b is dispatched to the
    relay, and the live target on socket 2 receives the header FROM with an
    empty sender id. -/
theorem C9_unidentified_relay_witness :
    (step aliveAll fmtNil 7 sessAnon servWithB
        = handleTO aliveAll 7 TOb (parseLine (bytesOf "TO b\n")).2
            { sessAnon with reader := { buf := [0, 0, 0, 0], chunks := [] } } servWithB) ∧
    (handleTO aliveAll 7 TOb (bytesOf "b") sessAnonR servWithB).foreign.head?
        = some (2, [70, 82, 79, 77, 32, 10]) := by
  have hmain := C9_unidentified_relay aliveAll fmtNil 7 sessAnon servWithB
    (bytesOf "TO b\n") { buf := [0, 0, 0, 0], chunks := [] }
    (by decide) (by decide) (by decide) (by decide)
  exact ⟨hmain.1,
    hmain.2 (bytesOf "b") sessAnonR servWithB targetRec 2 [0, 0, 0, 0]
      { buf := [], chunks := [] } (by decide) (by decide) (by decide) (by decide)
      (by decide) (by decide) (by decide)⟩

def sessLen0 : Session :=
  { reader := { buf := [0, 0, 0, 0], chunks := [] },
    id := bytesOf "a", addr := bytesOf "1.2.3.4:5", sock := 1 }

/-- Claim C4 is false on the code: a TO relay whose length prefix decodes to
    L = 0 (smaller than 4) is not rejected - the FROM line and the 4 length
    bytes are forwarded to the target, nothing is copied, and the originator
    receives OK TO, not an error reply. -/
theorem C4_claim_false :
    (handleTO aliveAll 7 TOb (bytesOf "b") sessLen0 servWithB).own
        = [mkMsg [OKb, TOb, bytesOf "b"]] ∧
    (handleTO aliveAll 7 TOb (bytesOf "b") sessLen0 servWithB).exited = false ∧
    (handleTO aliveAll 7 TOb (bytesOf "b") sessLen0 servWithB).foreign
        = [(2, mkMsg [FROMb, bytesOf "a"]), (2, [0, 0, 0, 0])] := by
  decide

/-- Claim C4 (amended): the length prefix is never validated.  With a live,
    fresh target and healthy sockets, whenever the int32 value L - 4
    (computed with int32 wraparound, sub32) is non-positive - in particular
    for every L with 0 <= L <= 4 and every negative L down to
    INT32_MIN + 4 - the relay forwards the FROM line and the length prefix,
    copies zero payload bytes, and replies OK TO; and every L with
    L - 4 > 0 is accepted, copying exactly L - 4 bytes when the originator
    supplies them. -/
theorem C4_length_unvalidated (alive : Nat → Bool) (now : Nat) (cmd param : Bytes)
    (sess : Session) (g : ServState) (tgt : ConnInfo) (h : Nat) (lb : Bytes)
    (r2 : BufReader)
    (hp : param ≠ [])
    (hl : lookupReg g.reg param = some tgt)
    (hc : tgt.conn = some h)
    (hfresh : ¬ timeout < now - tgt.updated)
    (hread : readN 4 sess.reader = some (lb, r2))
    (hwh : writeOk alive g h = true)
    (hwo : writeOk alive g sess.sock = true) :
    (sub32 (decodeLE4 lb) 4 ≤ 0 →
       handleTO alive now cmd param sess g =
         { sess := { sess with reader := r2 }, glob := g,
           own := [mkMsg [OKb, cmd, param]],
           foreign := [(h, mkMsg [FROMb, sess.id]), (h, encodeLE4 (decodeLE4 lb))],
           exited := false }) ∧
    (∀ payload r3, 0 < sub32 (decodeLE4 lb) 4 →
       readN (sub32 (decodeLE4 lb) 4).toNat r2 = some (payload, r3) →
       handleTO alive now cmd param sess g =
         { sess := { sess with reader := r3 }, glob := g,
           own := [mkMsg [OKb, cmd, param]],
           foreign := [(h, mkMsg [FROMb, sess.id]), (h, encodeLE4 (decodeLE4 lb)),
             (h, payload)],
           exited := false }) := by
  constructor
  · intro hn
    unfold handleTO
    rw [if_neg (by simpa using hp)]
    simp only [hl, hc, if_neg hfresh, hread, hwh, hwo]
    simp [hn]
  · intro payload r3 hn hreadp
    unfold handleTO
    rw [if_neg (by simpa using hp)]
    simp only [hl, hc, if_neg hfresh, hread, hwh, hwo]
    rw [if_neg (by omega : ¬ sub32 (decodeLE4 lb) 4 ≤ 0)]
    simp [hreadp]

def sessLenNeg : Session :=
  { reader := { buf := [252, 255, 255, 255], chunks := [] },
    id := bytesOf "a", addr := bytesOf "1.2.3.4:5", sock := 1 }

/-- Witness for the amended C4: the length prefix 0xFFFFFFFC (L = -4 signed)
    relays successfully with zero payload bytes. -/
theorem C4_length_unvalidated_witness :
    handleTO aliveAll 7 TOb (bytesOf "b") sessLenNeg servWithB =
      { sess := { sessLenNeg with reader := { buf := [], chunks := [] } },
        glob := servWithB,
        own := [mkMsg [OKb, TOb, bytesOf "b"]],
        foreign := [(2, mkMsg [FROMb, bytesOf "a"]),
          (2, encodeLE4 (decodeLE4 [252, 255, 255, 255]))],
        exited := false } :=
  (C4_length_unvalidated aliveAll 7 TOb (bytesOf "b") sessLenNeg servWithB targetRec 2
      [252, 255, 255, 255] { buf := [], chunks := [] }
      (by decide) (by decide) (by decide) (by decide) (by decide) (by decide)
      (by decide)).1 (by decide)

def sessLen2 : Session :=
  { reader := { buf := [2, 0, 0, 0], chunks := [] },
    id := bytesOf "a", addr := bytesOf "1.2.3.4:5", sock := 1 }

/-- Claim C1 is false as universally stated: a relay whose length prefix
    decodes to L = 2 completes with OK TO (see the TO case: io.CopyN with the
    negative count L - 4 copies nothing and reports success), yet the target
    does not receive exactly L - 4 payload bytes after the header and prefix -
    no payload list can have the negative length L - 4 = -2. -/
theorem C1_claim_false :
    (handleTO aliveAll 7 TOb (bytesOf "b") sessLen2 servWithB).own
        = [mkMsg [OKb, TOb, bytesOf "b"]] ∧
    ¬ ∃ payload : Bytes,
        (handleTO aliveAll 7 TOb (bytesOf "b") sessLen2 servWithB).foreign
            = [(2, mkMsg [FROMb, bytesOf "a"]), (2, [2, 0, 0, 0]), (2, payload)] ∧
        (payload.length : Int) = sub32 (decodeLE4 [2, 0, 0, 0]) 4 := by
  constructor
  · decide
  · rintro ⟨p, hf, hplen⟩
    have h2 : (handleTO aliveAll 7 TOb (bytesOf "b") sessLen2 servWithB).foreign.length = 2 := by
      decide
    rw [hf] at h2
    simp at h2

theorem encodeLE4_decodeLE4_list (lb : Bytes) (h4 : lb.length = 4)
    (hb : ∀ b ∈ lb, b < 256) : encodeLE4 (decodeLE4 lb) = lb := by
  obtain ⟨a, b, c, d, rfl⟩ : ∃ a b c d, lb = [a, b, c, d] := by
    rcases lb with _ | ⟨a, _ | ⟨b, _ | ⟨c, _ | ⟨d, _ | ⟨e, rest⟩⟩⟩⟩⟩
    · simp at h4
    · simp at h4
    · simp at h4
    · simp at h4
    · exact ⟨a, b, c, d, rfl⟩
    · simp at h4
  exact encodeLE4_decodeLE4 a b c d (hb a (by simp)) (hb b (by simp))
    (hb c (by simp)) (hb d (by simp))

theorem toNotConnected_own_ne_ok (alive : Nat → Bool) (cmd param : Bytes)
    (sess : Session) (g : ServState) (ys : List Bytes) :
    (toNotConnected alive cmd param sess g).own ≠ [mkMsg (OKb :: ys)] := by
  unfold toNotConnected
  split
  · intro h
    exact absurd (singletonList_eq h) (mkMsg_err_ne_ok _ _)
  · simp

theorem toFailCleanup_own_ne_ok (alive : Nat → Bool) (cmd param : Bytes)
    (sess : Session) (g : ServState) (delivered : List (Nat × Bytes)) (ys : List Bytes) :
    (toFailCleanup alive cmd param sess g delivered).own ≠ [mkMsg (OKb :: ys)] := by
  unfold toFailCleanup
  split
  · intro h
    exact absurd (singletonList_eq h) (mkMsg_err_ne_ok _ _)
  · simp

/-- Claim C1 (amended): whenever the TO case replies OK TO, the target's
    socket received, in order and with nothing else in between, the line FROM
    followed by the originator's id and LF, then the 4 length-prefix bytes
    re-encoded little-endian (identical to the bytes read, as every wire byte
    is below 256), then exactly max(L - 4, 0) payload bytes copied from the
    originator's stream - L - 4 in int32 arithmetic; for L - 4 <= 0 (any L
    from 0 to 4 and any negative L above INT32_MIN + 3) zero payload bytes
    are delivered. -/
theorem C1_relay_delivery_amended (alive : Nat → Bool) (now : Nat)
    (cmd param : Bytes) (sess : Session) (g : ServState)
    (hok : (handleTO alive now cmd param sess g).own = [mkMsg [OKb, cmd, param]]) :
    ∃ tgt h lb r2,
      lookupReg g.reg param = some tgt ∧
      tgt.conn = some h ∧
      readN 4 sess.reader = some (lb, r2) ∧
      ((∀ b ∈ lb, b < 256) → encodeLE4 (decodeLE4 lb) = lb) ∧
      ((sub32 (decodeLE4 lb) 4 ≤ 0 ∧
         handleTO alive now cmd param sess g =
           { sess := { sess with reader := r2 }, glob := g,
             own := [mkMsg [OKb, cmd, param]],
             foreign := [(h, mkMsg [FROMb, sess.id]), (h, encodeLE4 (decodeLE4 lb))],
             exited := false }) ∨
       (∃ payload r3,
          0 < sub32 (decodeLE4 lb) 4 ∧
          readN (sub32 (decodeLE4 lb) 4).toNat r2 = some (payload, r3) ∧
          payload.length = (sub32 (decodeLE4 lb) 4).toNat ∧
          handleTO alive now cmd param sess g =
            { sess := { sess with reader := r3 }, glob := g,
              own := [mkMsg [OKb, cmd, param]],
              foreign := [(h, mkMsg [FROMb, sess.id]), (h, encodeLE4 (decodeLE4 lb)),
                (h, payload)],
              exited := false })) := by
  by_cases hp : param = []
  · exfalso
    rw [handleTO, if_pos hp] at hok
    split at hok
    · exact absurd (singletonList_eq hok) (mkMsg_err_ne_ok _ _)
    · simp at hok
  · cases hl : lookupReg g.reg param with
    | none =>
      exfalso
      simp only [handleTO, if_neg hp, hl] at hok
      exact absurd hok (toNotConnected_own_ne_ok _ _ _ _ _ _)
    | some tgt =>
      cases hc : tgt.conn with
      | none =>
        exfalso
        simp only [handleTO, if_neg hp, hl, hc] at hok
        exact absurd hok (toNotConnected_own_ne_ok _ _ _ _ _ _)
      | some h =>
        by_cases hfresh : timeout < now - tgt.updated
        · exfalso
          simp only [handleTO, if_neg hp, hl, hc, if_pos hfresh] at hok
          exact absurd hok (toNotConnected_own_ne_ok _ _ _ _ _ _)
        · cases hread : readN 4 sess.reader with
          | none =>
            exfalso
            simp only [handleTO, if_neg hp, hl, hc, if_neg hfresh, hread] at hok
            split at hok
            · exact absurd (singletonList_eq hok) (mkMsg_err_ne_ok _ _)
            · simp at hok
          | some pr =>
            obtain ⟨lb, r2⟩ := pr
            by_cases hwh : writeOk alive g h = true
            · by_cases hn : sub32 (decodeLE4 lb) 4 ≤ 0
              · by_cases hwo : writeOk alive g sess.sock = true
                · refine ⟨tgt, h, lb, r2, rfl, hc, rfl, ?_, Or.inl ⟨hn, ?_⟩⟩
                  · intro hb
                    exact encodeLE4_decodeLE4_list lb (readN_length 4 _ _ _ hread) hb
                  · unfold handleTO
                    rw [if_neg hp]
                    simp only [hl, hc, if_neg hfresh, hread, hwh, hwo]
                    simp [hn]
                · exfalso
                  simp only [handleTO, if_neg hp, hl, hc, if_neg hfresh, hread, hwh,
                    if_pos hn] at hok
                  rw [if_neg hwo] at hok
                  simp at hok
              · cases hreadp : readN (sub32 (decodeLE4 lb) 4).toNat r2 with
                | none =>
                  exfalso
                  simp only [handleTO, if_neg hp, hl, hc, if_neg hfresh, hread, hwh] at hok
                  rw [if_neg hn] at hok
                  simp only [hreadp] at hok
                  exact absurd hok (toFailCleanup_own_ne_ok _ _ _ _ _ _ _)
                | some pp =>
                  obtain ⟨payload, r3⟩ := pp
                  by_cases hwo : writeOk alive g sess.sock = true
                  · refine ⟨tgt, h, lb, r2, rfl, hc, rfl, ?_,
                      Or.inr ⟨payload, r3, by omega, hreadp,
                        readN_length _ _ _ _ hreadp, ?_⟩⟩
                    · intro hb
                      exact encodeLE4_decodeLE4_list lb (readN_length 4 _ _ _ hread) hb
                    · unfold handleTO
                      rw [if_neg hp]
                      simp only [hl, hc, if_neg hfresh, hread, hwh, hwo]
                      rw [if_neg hn]
                      simp [hreadp]
                  · exfalso
                    simp only [handleTO, if_neg hp, hl, hc, if_neg hfresh, hread,
                      hwh] at hok
                    rw [if_neg hn] at hok
                    simp only [hreadp] at hok
                    rw [if_neg hwo] at hok
                    simp at hok
            · exfalso
              simp only [handleTO, if_neg hp, hl, hc, if_neg hfresh, hread] at hok
              rw [if_neg hwh] at hok
              exact absurd hok (toFailCleanup_own_ne_ok _ _ _ _ _ _ _)

def sessLen8 : Session :=
  { reader := { buf := [8, 0, 0, 0] ++ bytesOf "DEAD", chunks := [] },
    id := bytesOf "a", addr := bytesOf "1.2.3.4:5", sock := 1 }

/-- Witness for the amended C1 at L = 8 with payload DEAD: the OK TO reply
    implies the target received FROM a, the prefix 08 00 00 00, and the 4
    payload bytes. -/
theorem C1_relay_delivery_amended_witness :
    ∃ tgt h lb r2,
      lookupReg servWithB.reg (bytesOf "b") = some tgt ∧
      tgt.conn = some h ∧
      readN 4 sessLen8.reader = some (lb, r2) ∧
      ((∀ b ∈ lb, b < 256) → encodeLE4 (decodeLE4 lb) = lb) ∧
      ((sub32 (decodeLE4 lb) 4 ≤ 0 ∧
         handleTO aliveAll 7 TOb (bytesOf "b") sessLen8 servWithB =
           { sess := { sessLen8 with reader := r2 }, glob := servWithB,
             own := [mkMsg [OKb, TOb, bytesOf "b"]],
             foreign := [(h, mkMsg [FROMb, sessLen8.id]), (h, encodeLE4 (decodeLE4 lb))],
             exited := false }) ∨
       (∃ payload r3,
          0 < sub32 (decodeLE4 lb) 4 ∧
          readN (sub32 (decodeLE4 lb) 4).toNat r2 = some (payload, r3) ∧
          payload.length = (sub32 (decodeLE4 lb) 4).toNat ∧
          handleTO aliveAll 7 TOb (bytesOf "b") sessLen8 servWithB =
            { sess := { sessLen8 with reader := r3 }, glob := servWithB,
              own := [mkMsg [OKb, TOb, bytesOf "b"]],
              foreign := [(h, mkMsg [FROMb, sessLen8.id]), (h, encodeLE4 (decodeLE4 lb)),
                (h, payload)],
              exited := false })) :=
  C1_relay_delivery_amended aliveAll 7 TOb (bytesOf "b") sessLen8 servWithB (by decide)
